import Mathlib

/-!
Shallow embedding of the mulch VM config compiler
(`cmd/mulchd/server/vm_config.go`) and of the volume copy / resize
prototypes (`test-create.go`), together with theorems checking the
specification's claims about them.

TOML decoding itself is performed by an external library
(`BurntSushi/toml`); the embedding therefore starts from the decoded
`tomlVMConfig` record (with the documented defaults already applied
where the document omitted a field), exactly the state of `tConfig`
after `toml.Decode` returns in `NewVMConfigFromTomlReader`.
-/

namespace Mulch

/-- Mirror of `common.Domain` (declared outside `src/`); the fields are
exactly the ones `vm_config.go` reads or writes: `Name`, `VMName`,
`DestinationPort`, `RedirectToHTTPS`, `RedirectTo`. Fields that Go
leaves at their zero value are `0`, `false` and `""` respectively. -/
structure Domain where
  name : String
  vmName : String
  destinationPort : Int
  redirectToHTTPS : Bool
  redirectTo : String
deriving DecidableEq, Repr

/-- Mirror of `VMConfigScript`: a script for prepare, backup and restore steps. -/
structure VMConfigScript where
  scriptURL : String
  as : String
deriving DecidableEq, Repr

/-- Mirror of `VMConfig` (the `FileContent` field, a verbatim copy of the
input text, is omitted: it carries no validated data). `Env` is a Go map
built by successive unique-key inserts; it is modelled as the
insertion-ordered association list of those inserts. -/
structure VMConfig where
  name : String
  hostname : String
  timezone : String
  appUser : String
  seed : String
  initUpgrade : Bool
  diskSize : Nat
  ramSize : Nat
  cpuCount : Int
  domains : List Domain
  env : List (String × String)
  backupDiskSize : Nat
  restoreBackup : String
  prepare : List VMConfigScript
  backup : List VMConfigScript
  restore : List VMConfigScript
deriving DecidableEq, Repr

/-- Mirror of `tomlVMConfig`: the raw decoded document. Byte sizes
(`datasize.ByteSize`, a `uint64`) are `Nat`; `CPUCount` (a Go `int`) is
`Int`. -/
structure TomlVMConfig where
  name : String
  hostname : String
  timezone : String
  appUser : String
  seed : String
  initUpgrade : Bool
  diskSize : Nat
  ramSize : Nat
  cpuCount : Int
  domains : List String
  redirectToHTTPS : Bool
  redirects : List (List String)
  env : List (List String)
  backupDiskSize : Nat
  restoreBackup : String
  preparePrefixURL : String
  prepare : List String
  backupPrefixURL : String
  backup : List String
  restorePrefixURL : String
  restore : List String
deriving DecidableEq, Repr

/-- `1 * datasize.MB` from `c2h5oh/datasize`: the package uses binary
units, so 1 MB = 2^20 bytes. -/
def sizeMB : Nat := 1048576

/-- `1 * datasize.GB` = 2^30 bytes (binary units, see `sizeMB`). -/
def sizeGB : Nat := 1073741824

/-- Modelled from the spec: `IsValidTokenName` is declared outside
`src/`. The spec says a token must be non-empty and "alphanumeric plus
limited punctuation"; underscore and dash are the punctuation admitted
here. -/
def IsValidTokenName (s : String) : Bool :=
  s ≠ "" && s.data.all (fun c => c.isAlphanum || c = '_' || c = '-')

/-- Go `strings.ToLower` (the ASCII case; the configs under
consideration are ASCII). Defined by structural recursion over the
character list so that concrete instances evaluate in the kernel. -/
def strToLower (s : String) : String := ⟨s.data.map Char.toLower⟩

/-- Go `strings.TrimSpace`: drop leading and trailing whitespace. -/
def strTrim (s : String) : String :=
  ⟨((s.data.dropWhile Char.isWhitespace).reverse.dropWhile
      Char.isWhitespace).reverse⟩

/-- Worker for `splitOnStr`: split a character list on each
non-overlapping occurrence of `sep`, scanning left to right. `fuel`
(initialised to the list length) makes the recursion structural; it
never runs out since each step consumes at least one character. -/
def splitGo (sep : List Char) : Nat → List Char → List Char → List (List Char)
  | _, [], acc => [acc.reverse]
  | 0, cs, acc => [acc.reverse ++ cs]
  | fuel + 1, c :: cs, acc =>
    if sep.isPrefixOf (c :: cs) then
      acc.reverse :: splitGo sep fuel ((c :: cs).drop sep.length) []
    else splitGo sep fuel cs (c :: acc)

/-- Go `strings.Split` for a non-empty separator. -/
def splitOnStr (s : String) (sep : String) : List String :=
  (splitGo sep.data s.data.length s.data []).map (fun cs => ⟨cs⟩)

/-- Rejoin split segments with a separator (the inverse slice used to
recover the substring after the first separator occurrence). -/
def joinWith (sep : String) : List String → String
  | [] => ""
  | [x] => x
  | x :: y :: xs => x ++ sep ++ joinWith sep (y :: xs)

/-- Go `strconv.Atoi`: an optional sign followed by a non-empty run of
decimal digits; anything else is an error (`none`). -/
def digitsToNat : List Char → Option Nat
  | [] => none
  | cs =>
    if cs.all Char.isDigit then
      some (cs.foldl (fun acc c => acc * 10 + (c.toNat - 48)) 0)
    else none

/-- Go `strconv.Atoi` (overflow of the 64-bit `int` range is not
modelled; ports in the claims are small). -/
def atoi (s : String) : Option Int :=
  match s.data with
  | [] => none
  | '+' :: rest => (digitsToNat rest).map Int.ofNat
  | '-' :: rest => (digitsToNat rest).map (fun n => -(Int.ofNat n))
  | cs => (digitsToNat cs).map Int.ofNat

/-- Structured compilation errors; each constructor corresponds to one
`fmt.Errorf` site of `vm_config.go` and carries the data interpolated
into that error message. -/
inductive CompileError where
  | invalidName (name : String)
  | invalidAppUser (name : String)
  | invalidSeed (name : String)
  | tooSmallDisk (size : Nat)
  | tooSmallRAM (size : Nat)
  | needOneCPU
  | tooSmallBackupDisk (size : Nat)
  | invalidDomainString (entry : String)
  | invalidPortNumber (port : String)
  | invalidRedirectPair
  | cannotRedirectTo (dest : String)
  | duplicateDomain (name : String)
  | invalidEnvLine (found : Nat)
  | invalidEnvName (key : String)
  | duplicatedEnvName (key : String)
  | scriptBadFormat (entry : String)
  | scriptInvalidUser (user : String)
  | scriptFetchError (scriptURL : String) (msg : String)
  | scriptReadError (scriptURL : String) (n : Nat)
  | scriptNoShebang (scriptURL : String)
deriving DecidableEq, Repr

/-- One iteration of the domain loop of `NewVMConfigFromTomlReader`
(lines 174–195): split the entry on `"->"`, require one or two parts,
lower-case and trim the hostname, default the port to 80 or parse it
with `Atoi`. -/
def parseDomainEntry (vmName : String) (redirectToHTTPS : Bool)
    (domainName : String) : Except CompileError Domain :=
  match splitOnStr domainName "->" with
  | [h0] =>
    .ok { name := strTrim (strToLower h0), vmName := vmName,
          destinationPort := 80,
          redirectToHTTPS := redirectToHTTPS, redirectTo := "" }
  | [h0, p1] =>
    match atoi p1 with
    | none => .error (.invalidPortNumber p1)
    | some port =>
      .ok { name := strTrim (strToLower h0), vmName := vmName,
            destinationPort := port,
            redirectToHTTPS := redirectToHTTPS, redirectTo := "" }
  | _ => .error (.invalidDomainString domainName)

/-- The domain loop: builds `vmConfig.Domains` in order (the companion
`domainList` of hostnames is recovered as `(·.name) <$>` the result). -/
def compileDomains (vmName : String) (redirectToHTTPS : Bool) :
    List String → Except CompileError (List Domain)
  | [] => .ok []
  | d :: rest =>
    match parseDomainEntry vmName redirectToHTTPS d with
    | .error e => .error e
    | .ok dom =>
      match compileDomains vmName redirectToHTTPS rest with
      | .error e => .error e
      | .ok doms => .ok (dom :: doms)

/-- The redirects loop (lines 197–222): each entry must be a two-string
array, its destination (lower-cased, trimmed) must be one of
`domainList`, and a redirect `Domain` is appended. -/
def compileRedirects (vmName : String) (domainList : List String) :
    List (List String) → Except CompileError (List Domain)
  | [] => .ok []
  | parts :: rest =>
    match parts with
    | [p0, p1] =>
      let src := strTrim (strToLower p0)
      let dest := strTrim (strToLower p1)
      if domainList.contains dest then
        match compileRedirects vmName domainList rest with
        | .error e => .error e
        | .ok doms =>
          .ok ({ name := src, vmName := vmName, destinationPort := 0,
                 redirectToHTTPS := false, redirectTo := dest } :: doms)
      else .error (.cannotRedirectTo dest)
    | _ => .error .invalidRedirectPair

/-- The duplicate-domain check (lines 224–232): scan the combined domain
list with a set of already-seen names; return the first name seen
twice, or `none`. -/
def findDuplicateDomain : List Domain → List String → Option String
  | [], _ => none
  | d :: rest, seen =>
    if seen.contains d.name then some d.name
    else findDuplicateDomain rest (d.name :: seen)

/-- The env loop (lines 234–253): each line must have exactly two
values, the key must be a valid token and not already present; the pair
is then inserted into the map (modelled as append to the assoc list). -/
def compileEnv (acc : List (String × String)) :
    List (List String) → Except CompileError (List (String × String))
  | [] => .ok acc
  | line :: rest =>
    match line with
    | [key, val] =>
      if !IsValidTokenName key then .error (.invalidEnvName key)
      else if (acc.find? (fun p => p.1 == key)).isSome then
        .error (.duplicatedEnvName key)
      else compileEnv (acc ++ [(key, val)]) rest
    | _ => .error (.invalidEnvLine line.length)

/-- The injected document fetcher (`GetScriptFromURL` lives outside
`src/`; the spec describes it as an injected collaborator returning a
byte stream or an error). Content is the full byte sequence the stream
would deliver. -/
def Fetcher : Type := String → Except String (List Nat)

/-- `vmConfigGetScript` (lines 69–104): split the raw entry on the
first `@`, validate the user token, resolve the URL against the
category prefix, fetch, read the first two bytes and require the
shebang marker `#!` (bytes 35, 33). -/
def vmConfigGetScript (fetch : Fetcher) (tScript : String)
    (prefixURL : String) : Except CompileError VMConfigScript :=
  match splitOnStr tScript "@" with
  | [] => .error (.scriptBadFormat tScript)
  | [_] => .error (.scriptBadFormat tScript)
  | a :: rest =>
    let scriptURL := prefixURL ++ joinWith "@" rest
    if !IsValidTokenName a then .error (.scriptInvalidUser a)
    else
      match fetch scriptURL with
      | .error msg => .error (.scriptFetchError scriptURL msg)
      | .ok bytes =>
        match bytes with
        | b0 :: b1 :: _ =>
          if b0 = 35 ∧ b1 = 33 then .ok { scriptURL := scriptURL, as := a }
          else .error (.scriptNoShebang scriptURL)
        | _ => .error (.scriptReadError scriptURL bytes.length)

/-- One of the three script loops (lines 260–282), parameterised by the
category's prefix URL. -/
def compileScripts (fetch : Fetcher) (prefixURL : String) :
    List String → Except CompileError (List VMConfigScript)
  | [] => .ok []
  | t :: rest =>
    match vmConfigGetScript fetch t prefixURL with
    | .error e => .error e
    | .ok s =>
      match compileScripts fetch prefixURL rest with
      | .error e => .error e
      | .ok ss => .ok (s :: ss)

/-- `NewVMConfigFromTomlReader` (lines 108–286), from the decoded
document on. The Go function returns the pair `(*VMConfig, error)`; the
embedding keeps that shape as `Option VMConfig × Option CompileError`
so that each `return nil, err` site is a `(none, some e)` branch and
each success is `(some cfg, none)`. -/
def NewVMConfigFromToml (fetch : Fetcher) (t : TomlVMConfig) :
    Option VMConfig × Option CompileError :=
  if t.name = "" ∨ ¬ IsValidTokenName t.name then
    (none, some (.invalidName t.name))
  else if t.appUser = "" then
    (none, some (.invalidAppUser t.appUser))
  else if t.seed = "" ∨ ¬ IsValidTokenName t.seed then
    (none, some (.invalidSeed t.seed))
  else if t.diskSize < sizeMB then
    (none, some (.tooSmallDisk t.diskSize))
  else if t.ramSize < sizeMB then
    (none, some (.tooSmallRAM t.ramSize))
  else if t.cpuCount < 1 then
    (none, some .needOneCPU)
  else
    match compileDomains t.name t.redirectToHTTPS t.domains with
    | .error e => (none, some e)
    | .ok doms =>
      match compileRedirects t.name (doms.map (·.name)) t.redirects with
      | .error e => (none, some e)
      | .ok redirDoms =>
        match findDuplicateDomain (doms ++ redirDoms) [] with
        | some d => (none, some (.duplicateDomain d))
        | none =>
          match compileEnv [] t.env with
          | .error e => (none, some e)
          | .ok env =>
            if t.backupDiskSize < 32 * sizeMB then
              (none, some (.tooSmallBackupDisk t.backupDiskSize))
            else
              match compileScripts fetch t.preparePrefixURL t.prepare with
              | .error e => (none, some e)
              | .ok prepScripts =>
                match compileScripts fetch t.backupPrefixURL t.backup with
                | .error e => (none, some e)
                | .ok backScripts =>
                  match compileScripts fetch t.restorePrefixURL t.restore with
                  | .error e => (none, some e)
                  | .ok restScripts =>
                    (some {
                      name := t.name
                      hostname := t.hostname
                      timezone := t.timezone
                      appUser := t.appUser
                      seed := t.seed
                      initUpgrade := t.initUpgrade
                      diskSize := t.diskSize
                      ramSize := t.ramSize
                      cpuCount := t.cpuCount
                      domains := doms ++ redirDoms
                      env := env
                      backupDiskSize := t.backupDiskSize
                      restoreBackup := t.restoreBackup
                      prepare := prepScripts
                      backup := backScripts
                      restore := restScripts }, none)

/-- The warnings `NewVMConfigFromTomlReader` emits through its `*Log`
argument: the single `log.Warningf` call of the function (lines
169–171), reached only after the six scalar validations pass. -/
def compileWarnings (t : TomlVMConfig) : List String :=
  if t.name = "" ∨ ¬ IsValidTokenName t.name then []
  else if t.appUser = "" then []
  else if t.seed = "" ∨ ¬ IsValidTokenName t.seed then []
  else if t.diskSize < sizeMB then []
  else if t.ramSize < sizeMB then []
  else if t.cpuCount < 1 then []
  else if t.domains.length = 0 then ["no domain defined for this VM"]
  else []

/-! Volume engine: copy (`test-create.go` lines 16–101) and resize
(lines 103–139). Disk content is a byte sequence; the embedding tracks
the bytes transferred and the destination content. -/

/-- Chunked stream copy: repeatedly read at most `chunk` bytes from the
source and append them to the destination until the source is
exhausted; returns total bytes transferred and the destination
content. This is the common core of Go's `io.Copy` (fixed internal
buffer) and of the volume-to-volume stream transfer. -/
def streamCopy (chunk : Nat) (src : List Nat) : Nat × List Nat :=
  if h : chunk = 0 ∨ src = [] then (0, [])
  else
    let piece := src.take chunk
    let rest := streamCopy chunk (src.drop chunk)
    (piece.length + rest.1, piece ++ rest.2)
termination_by src.length
decreasing_by
  push_neg at h
  have h1 : 0 < src.length := List.length_pos.mpr h.2
  have h2 : chunk ≠ 0 := h.1
  simp only [List.length_drop]
  omega

/-- The 32 KiB buffer Go's `io.Copy` allocates when no buffer is supplied. -/
def ioCopyBufferSize : Nat := 32768

/-- `createDiskFromRelease` (lines 77–101): the direct file-copy
fallback. Opens source and destination files, copies with `io.Copy`
(32 KiB buffered chunks), then `Sync`s the destination (flush only: it
does not change content or the reported byte count). Result: bytes
written and destination file content. -/
def createDiskFromRelease (src : List Nat) : Nat × List Nat :=
  streamCopy ioCopyBufferSize src

/-- Modelled from the spec: `NewVolumeTransfert(...).Copy`, called by
`createDiskFromReleaseWithLibvirt`, is declared outside `src/`. The
spec describes it as "a volume-to-volume streamed copy between source
and destination using the hypervisor's upload/download stream
primitives, reading/writing in fixed-size chunks until source
exhaustion; returns total bytes transferred". The fixed chunk size is
kept as a positive parameter. -/
def volumeTransfertCopy (chunk : Nat) (src : List Nat) : Nat × List Nat :=
  streamCopy chunk src

/-- `createDiskFromReleaseWithLibvirt` (lines 16–75): the delegated
clone strategy. Creates the destination volume from the XML template,
then delegates the content transfer to `NewVolumeTransfert(...).Copy`
and reports its byte count. -/
def createDiskFromReleaseWithLibvirt (chunk : Nat) (src : List Nat) :
    Nat × List Nat :=
  volumeTransfertCopy chunk src

/-- The externally observable call a resize function performs. -/
inductive ResizeAction where
  | nativeVolumeResize (pool : String) (volume : String) (size : Nat)
  | execCommand (cmd : String) (args : List String)
      (captureCombinedOutput : Bool)
deriving DecidableEq, Repr

/-- `resizeDiskWithLibvirt` (lines 103–124): look up the `mulch-disks`
pool and the volume, then call the hypervisor's native
`vol.Resize(size, 0)`. -/
def resizeDiskWithLibvirt (disk : String) (size : Nat) : ResizeAction :=
  .nativeVolumeResize "mulch-disks" disk size

/-- `resizeDisk` (lines 126–139): invoke `qemu-img resize` on the
destination file path `storage/disks/<disk>` with the target size,
capturing the command's `CombinedOutput` for diagnostics. -/
def resizeDisk (disk : String) (size : String) : ResizeAction :=
  .execCommand "qemu-img" ["resize", "storage/disks/" ++ disk, size] true

/-- Modelled from the spec: the strategy selection ("prefer the
hypervisor's native volume-resize call; fall back to invoking an
external disk-image resize utility") is not a single function under
`src/` — `test-create.go` contains the two strategies as separate
functions and its `main` picks one. Selection by availability of the
hypervisor abstraction. -/
def resizeVolume (hasHypervisor : Bool) (disk : String) (size : Nat)
    (sizeText : String) : ResizeAction :=
  if hasHypervisor then resizeDiskWithLibvirt disk size
  else resizeDisk disk sizeText

/-! Sample documents and fetchers used by witnesses. -/

/-- A fetcher that fails every URL (the sample documents below declare
no lifecycle scripts, so it is never consulted on the success paths). -/
def sampleFetcher : Fetcher := fun _ => Except.error "no fetch"

/-- A fetcher serving one shell script (content starting with `#!`). -/
def scriptFetcher : Fetcher := fun u =>
  if u = "https://example.com/setup.sh" then Except.ok [35, 33, 10]
  else Except.error "not found"

/-- The spec's scenario document: `name="web1"`, `seed="debian-9"`,
`disk_size="2GB"`, `ram_size="512MB"`, `cpu_count=1`, domain
`"web1.example.com"`, all remaining fields at their documented
defaults. -/
def scenarioDoc : TomlVMConfig where
  name := "web1"
  hostname := "localhost.localdomain"
  timezone := "Europe/Paris"
  appUser := "app"
  seed := "debian-9"
  initUpgrade := true
  diskSize := 2 * sizeGB
  ramSize := 512 * sizeMB
  cpuCount := 1
  domains := ["web1.example.com"]
  redirectToHTTPS := true
  redirects := []
  env := []
  backupDiskSize := 2 * sizeGB
  restoreBackup := ""
  preparePrefixURL := ""
  prepare := []
  backupPrefixURL := ""
  backup := []
  restorePrefixURL := ""
  restore := []

/-- The scenario document with `disk_size="500KB"` (500 × 1024 bytes). -/
def smallDiskDoc : TomlVMConfig := { scenarioDoc with diskSize := 512000 }

/-- The scenario document with a duplicated domain hostname. -/
def dupDomainDoc : TomlVMConfig :=
  { scenarioDoc with domains := ["a.example.com", "a.example.com"] }

/-- The scenario document with a redirect whose target is not a
declared domain. -/
def badRedirectDoc : TomlVMConfig :=
  { scenarioDoc with redirects := [["www.example.com", "other.example.com"]] }

/-- The scenario document with no domain bindings at all. -/
def noDomainDoc : TomlVMConfig := { scenarioDoc with domains := [] }

/-! Helper lemmas. -/

/-- A chunked stream copy with a positive chunk size transfers exactly
the source's length in bytes and reproduces the source byte-for-byte. -/
theorem streamCopy_spec (chunk : Nat) (hc : chunk ≠ 0) :
    ∀ src : List Nat, streamCopy chunk src = (src.length, src) := by
  have key : ∀ n : Nat, ∀ src : List Nat, src.length ≤ n →
      streamCopy chunk src = (src.length, src) := by
    intro n
    induction n with
    | zero =>
      intro src hl
      have hsrc : src = [] := List.eq_nil_of_length_eq_zero (Nat.le_zero.mp hl)
      subst hsrc
      simp [streamCopy]
    | succ n ih =>
      intro src hl
      rcases eq_or_ne src [] with hsrc | hsrc
      · subst hsrc; simp [streamCopy]
      · rw [streamCopy, dif_neg (by push_neg; exact ⟨hc, hsrc⟩)]
        have hlen : 0 < src.length := List.length_pos.mpr hsrc
        have hdl : (src.drop chunk).length ≤ n := by
          simp only [List.length_drop]; omega
        rw [ih _ hdl]
        refine Prod.ext ?_ ?_
        · simp only [List.length_take, List.length_drop]; omega
        · simp only [List.take_append_drop]
  intro src
  exact key src.length src le_rfl

/-- If the duplicate scan reports no duplicate, the scanned names are
pairwise distinct and none of them occurs in the already-seen set. -/
theorem findDuplicateDomain_eq_none (ds : List Domain) :
    ∀ seen, findDuplicateDomain ds seen = none →
      (ds.map (fun d => d.name)).Nodup ∧
        ∀ x ∈ ds.map (fun d => d.name), x ∉ seen := by
  induction ds with
  | nil => intro seen _; simp
  | cons d rest ih =>
    intro seen h
    by_cases hc : seen.contains d.name
    · have hm : d.name ∈ seen := by simpa using hc
      simp [findDuplicateDomain, hm] at h
    · simp only [findDuplicateDomain, hc, if_false, Bool.false_eq_true] at h
      obtain ⟨hnd, hmem⟩ := ih _ h
      have hdn : d.name ∉ seen := by simpa using hc
      constructor
      · simp only [List.map_cons, List.nodup_cons]
        refine ⟨fun hmem2 => ?_, hnd⟩
        exact (hmem _ hmem2) (List.mem_cons_self _ _)
      · intro x hx
        simp only [List.map_cons, List.mem_cons] at hx
        rcases hx with hx | hx
        · subst hx; exact hdn
        · intro hxs
          exact (hmem _ hx) (List.mem_cons_of_mem _ hxs)

/-- If the duplicate scan reports a name, that name occurs at least
twice in the seen set and the scanned names combined. -/
theorem findDuplicateDomain_eq_some (ds : List Domain) :
    ∀ seen d, findDuplicateDomain ds seen = some d →
      2 ≤ ((seen ++ ds.map (fun x => x.name)).count d) := by
  induction ds with
  | nil => intro seen d h; simp [findDuplicateDomain] at h
  | cons x rest ih =>
    intro seen d h
    by_cases hc : seen.contains x.name
    · simp only [findDuplicateDomain, hc, if_true] at h
      have hd : x.name = d := by simpa using h
      subst hd
      have hm : x.name ∈ seen := by simpa using hc
      have h1 : 0 < seen.count x.name := List.count_pos_iff.mpr hm
      simp only [List.count_append, List.map_cons, List.count_cons]
      simp only [beq_self_eq_true, if_true]
      omega
    · simp only [findDuplicateDomain, hc, if_false, Bool.false_eq_true] at h
      have := ih (x.name :: seen) d h
      by_cases hd : x.name = d
      · subst hd
        simp only [List.count_append, List.count_cons, List.map_cons,
          beq_self_eq_true, if_true] at this ⊢
        omega
      · have hne : ¬(x.name == d) = true := by simpa using hd
        simp only [List.count_append, List.count_cons, List.map_cons,
          hne, if_false] at this ⊢
        omega

/-- A duplicated name in the combined domain list makes the scan report
some name, and that name is indeed duplicated. -/
theorem findDuplicateDomain_of_not_nodup (ds : List Domain)
    (h : ¬ (ds.map (fun d => d.name)).Nodup) :
    ∃ d, findDuplicateDomain ds [] = some d ∧
      2 ≤ ((ds.map (fun x => x.name)).count d) := by
  cases hfd : findDuplicateDomain ds [] with
  | none => exact absurd (findDuplicateDomain_eq_none ds [] hfd).1 h
  | some d =>
    refine ⟨d, rfl, ?_⟩
    have := findDuplicateDomain_eq_some ds [] d hfd
    simpa using this

/-- If every redirect entry is a two-string pair and some entry's
destination is not among the compiled domain hostnames, the redirects
loop fails with `cannotRedirectTo` for such a destination. -/
theorem compileRedirects_missing_target (v : String) (dl : List String) :
    ∀ entries : List (List String),
      (∀ r ∈ entries, r.length = 2) →
      (∃ p0 p1, [p0, p1] ∈ entries ∧
        dl.contains (strTrim (strToLower p1)) = false) →
      ∃ dest, compileRedirects v dl entries = .error (.cannotRedirectTo dest)
        ∧ dl.contains dest = false := by
  intro entries
  induction entries with
  | nil =>
    intro _ hex
    obtain ⟨_, _, hmem, _⟩ := hex
    simp at hmem
  | cons r rest ih =>
    intro hlen hex
    have hr2 : r.length = 2 := hlen r (List.mem_cons_self _ _)
    rcases r with _ | ⟨a, _ | ⟨b, _ | _⟩⟩ <;> simp at hr2
    by_cases hc : dl.contains (strTrim (strToLower b))
    · have hex2 : ∃ p0 p1, [p0, p1] ∈ rest ∧
          dl.contains (strTrim (strToLower p1)) = false := by
        obtain ⟨p0, p1, hmem, hfalse⟩ := hex
        rcases List.mem_cons.mp hmem with heq | hmem2
        · have hp1 : p1 = b := by
            have := heq.symm
            simp at this
            exact this.2.symm
          rw [hp1] at hfalse
          rw [hfalse] at hc
          simp at hc
        · exact ⟨p0, p1, hmem2, hfalse⟩
      obtain ⟨dest, hrec, hdest⟩ :=
        ih (fun q hq => hlen q (List.mem_cons_of_mem _ hq)) hex2
      exact ⟨dest, by simp only [compileRedirects, hc, if_true, hrec], hdest⟩
    · refine ⟨strTrim (strToLower b), ?_, by simpa using hc⟩
      simp [compileRedirects, hc]
      intro hmem
      exact absurd hmem (by simpa using hc)

/-- Every branch of the compiler returns either no error or no config:
the pair is never `(some cfg, some err)`. -/
theorem compile_shape (fetch : Fetcher) (t : TomlVMConfig) :
    (NewVMConfigFromToml fetch t).2 = none ∨
      (NewVMConfigFromToml fetch t).1 = none := by
  unfold NewVMConfigFromToml
  repeat' split
  all_goals simp

/-! Claim theorems. -/

/-- C1: config compilation validates fields in the fixed order name
token validity, then app-user non-emptiness, then seed-image token
validity, then disk size ≥ 1 MB, then RAM size ≥ 1 MB, then CPU count
≥ 1, and (after domain/redirect/env processing) backup disk size ≥
32 MB, failing fast on the first violated check and returning an error
naming the offending field; and the 500 KB-disk scenario document
fails with the "too small disk" error. -/
theorem compile_validation_order (fetch : Fetcher) (t : TomlVMConfig)
    (doms redirDoms : List Domain) (env : List (String × String)) :
    ((t.name = "" ∨ ¬ IsValidTokenName t.name) →
      NewVMConfigFromToml fetch t = (none, some (.invalidName t.name)))
  ∧ (¬(t.name = "" ∨ ¬ IsValidTokenName t.name) →
      t.appUser = "" →
      NewVMConfigFromToml fetch t = (none, some (.invalidAppUser t.appUser)))
  ∧ (¬(t.name = "" ∨ ¬ IsValidTokenName t.name) →
      t.appUser ≠ "" →
      (t.seed = "" ∨ ¬ IsValidTokenName t.seed) →
      NewVMConfigFromToml fetch t = (none, some (.invalidSeed t.seed)))
  ∧ (¬(t.name = "" ∨ ¬ IsValidTokenName t.name) →
      t.appUser ≠ "" →
      ¬(t.seed = "" ∨ ¬ IsValidTokenName t.seed) →
      t.diskSize < sizeMB →
      NewVMConfigFromToml fetch t = (none, some (.tooSmallDisk t.diskSize)))
  ∧ (¬(t.name = "" ∨ ¬ IsValidTokenName t.name) →
      t.appUser ≠ "" →
      ¬(t.seed = "" ∨ ¬ IsValidTokenName t.seed) →
      ¬ t.diskSize < sizeMB →
      t.ramSize < sizeMB →
      NewVMConfigFromToml fetch t = (none, some (.tooSmallRAM t.ramSize)))
  ∧ (¬(t.name = "" ∨ ¬ IsValidTokenName t.name) →
      t.appUser ≠ "" →
      ¬(t.seed = "" ∨ ¬ IsValidTokenName t.seed) →
      ¬ t.diskSize < sizeMB →
      ¬ t.ramSize < sizeMB →
      t.cpuCount < 1 →
      NewVMConfigFromToml fetch t = (none, some .needOneCPU))
  ∧ (¬(t.name = "" ∨ ¬ IsValidTokenName t.name) →
      t.appUser ≠ "" →
      ¬(t.seed = "" ∨ ¬ IsValidTokenName t.seed) →
      ¬ t.diskSize < sizeMB →
      ¬ t.ramSize < sizeMB →
      ¬ t.cpuCount < 1 →
      compileDomains t.name t.redirectToHTTPS t.domains = .ok doms →
      compileRedirects t.name (doms.map (fun d => d.name)) t.redirects
        = .ok redirDoms →
      findDuplicateDomain (doms ++ redirDoms) [] = none →
      compileEnv [] t.env = .ok env →
      t.backupDiskSize < 32 * sizeMB →
      NewVMConfigFromToml fetch t
        = (none, some (.tooSmallBackupDisk t.backupDiskSize)))
  ∧ NewVMConfigFromToml sampleFetcher smallDiskDoc
      = (none, some (.tooSmallDisk 512000)) := by
  refine ⟨?_, ?_, ?_, ?_, ?_, ?_, ?_, by decide⟩
  · intro h1
    unfold NewVMConfigFromToml
    rw [if_pos h1]
  · intro h1 h2
    unfold NewVMConfigFromToml
    rw [if_neg h1, if_pos h2]
  · intro h1 h2 h3
    unfold NewVMConfigFromToml
    rw [if_neg h1, if_neg h2, if_pos h3]
  · intro h1 h2 h3 h4
    unfold NewVMConfigFromToml
    rw [if_neg h1, if_neg h2, if_neg h3, if_pos h4]
  · intro h1 h2 h3 h4 h5
    unfold NewVMConfigFromToml
    rw [if_neg h1, if_neg h2, if_neg h3, if_neg h4, if_pos h5]
  · intro h1 h2 h3 h4 h5 h6
    unfold NewVMConfigFromToml
    rw [if_neg h1, if_neg h2, if_neg h3, if_neg h4, if_neg h5, if_pos h6]
  · intro h1 h2 h3 h4 h5 h6 hdoms hrds hdup henv hb
    unfold NewVMConfigFromToml
    rw [if_neg h1, if_neg h2, if_neg h3, if_neg h4, if_neg h5, if_neg h6]
    simp only [hdoms, hrds, hdup, henv]
    rw [if_pos hb]

/-- C1 witness: the fourth conjunct applied to the 500 KB-disk scenario
document. -/
theorem compile_validation_order_witness :
    NewVMConfigFromToml sampleFetcher smallDiskDoc
      = (none, some (.tooSmallDisk 512000)) := by
  have h := compile_validation_order sampleFetcher smallDiskDoc [] [] []
  exact h.2.2.2.1 (by decide) (by decide) (by decide) (by decide)

/-- C3: a config in which the same hostname appears more than once
across domain bindings and redirect entries combined fails compilation
with an error naming the duplicated domain (here: the named domain
occurs at least twice in the combined compiled domain list). -/
theorem duplicate_domain_fails (fetch : Fetcher) (t : TomlVMConfig)
    (doms redirDoms : List Domain)
    (hname : t.name ≠ "") (hntok : IsValidTokenName t.name = true)
    (happ : t.appUser ≠ "")
    (hseed : t.seed ≠ "") (hstok : IsValidTokenName t.seed = true)
    (hdisk : sizeMB ≤ t.diskSize) (hram : sizeMB ≤ t.ramSize)
    (hcpu : 1 ≤ t.cpuCount)
    (hdoms : compileDomains t.name t.redirectToHTTPS t.domains = .ok doms)
    (hrds : compileRedirects t.name (doms.map (fun d => d.name)) t.redirects
      = .ok redirDoms)
    (hdup : ¬ ((doms ++ redirDoms).map (fun d => d.name)).Nodup) :
    ∃ d, NewVMConfigFromToml fetch t = (none, some (.duplicateDomain d))
      ∧ 2 ≤ (((doms ++ redirDoms).map (fun x => x.name)).count d) := by
  obtain ⟨d, hfd, hcount⟩ := findDuplicateDomain_of_not_nodup _ hdup
  refine ⟨d, ?_, hcount⟩
  unfold NewVMConfigFromToml
  rw [if_neg (by simp [hname, hntok]), if_neg happ,
    if_neg (by simp [hseed, hstok]), if_neg (by omega), if_neg (by omega),
    if_neg (by omega)]
  simp only [hdoms, hrds, hfd]

/-- C3 witness: the scenario document with the hostname
`a.example.com` declared twice. -/
theorem duplicate_domain_fails_witness :
    ∃ d, NewVMConfigFromToml sampleFetcher dupDomainDoc
        = (none, some (.duplicateDomain d))
      ∧ 2 ≤ (((([⟨"a.example.com", "web1", 80, true, ""⟩,
          ⟨"a.example.com", "web1", 80, true, ""⟩] : List Domain)
            ++ ([] : List Domain)).map
            (fun x => x.name)).count d) :=
  duplicate_domain_fails sampleFetcher dupDomainDoc
    [⟨"a.example.com", "web1", 80, true, ""⟩,
     ⟨"a.example.com", "web1", 80, true, ""⟩] []
    (by decide) (by decide) (by decide) (by decide) (by decide)
    (by decide) (by decide) (by decide) rfl rfl (by decide)

/-- C4: a config containing a well-formed redirect entry whose
destination hostname is not among the compiled domain-binding
hostnames fails compilation with a validation error naming that
redirect target. -/
theorem redirect_target_missing_fails (fetch : Fetcher) (t : TomlVMConfig)
    (doms : List Domain)
    (hname : t.name ≠ "") (hntok : IsValidTokenName t.name = true)
    (happ : t.appUser ≠ "")
    (hseed : t.seed ≠ "") (hstok : IsValidTokenName t.seed = true)
    (hdisk : sizeMB ≤ t.diskSize) (hram : sizeMB ≤ t.ramSize)
    (hcpu : 1 ≤ t.cpuCount)
    (hdoms : compileDomains t.name t.redirectToHTTPS t.domains = .ok doms)
    (hlen : ∀ r ∈ t.redirects, r.length = 2)
    (hex : ∃ p0 p1, [p0, p1] ∈ t.redirects ∧
      (doms.map (fun d => d.name)).contains
        (strTrim (strToLower p1)) = false) :
    ∃ dest, NewVMConfigFromToml fetch t
        = (none, some (.cannotRedirectTo dest))
      ∧ (doms.map (fun d => d.name)).contains dest = false := by
  obtain ⟨dest, hred, hdest⟩ :=
    compileRedirects_missing_target t.name (doms.map (fun d => d.name))
      t.redirects hlen hex
  refine ⟨dest, ?_, hdest⟩
  unfold NewVMConfigFromToml
  rw [if_neg (by simp [hname, hntok]), if_neg happ,
    if_neg (by simp [hseed, hstok]), if_neg (by omega), if_neg (by omega),
    if_neg (by omega)]
  simp only [hdoms, hred]

/-- C4 witness: the scenario document with a redirect pointing at
`other.example.com`, which is not one of its domains. -/
theorem redirect_target_missing_fails_witness :
    ∃ dest, NewVMConfigFromToml sampleFetcher badRedirectDoc
        = (none, some (.cannotRedirectTo dest))
      ∧ (([⟨"web1.example.com", "web1", 80, true, ""⟩] : List Domain).map
          (fun d => d.name)).contains dest = false :=
  redirect_target_missing_fails sampleFetcher badRedirectDoc
    [⟨"web1.example.com", "web1", 80, true, ""⟩]
    (by decide) (by decide) (by decide) (by decide) (by decide)
    (by decide) (by decide) (by decide) rfl
    (by decide)
    ⟨"www.example.com", "other.example.com", by decide, by decide⟩

/-- C5: a domain-binding entry is accepted exactly in the forms
`hostname` and `hostname->port`: the hostname is lower-cased and
trimmed, the port defaults to 80 when absent, a non-numeric port is
rejected, and an entry with more than one `->` separator is rejected
as an invalid domain string. -/
theorem domain_entry_forms (v : String) (r : Bool) (s a b : String)
    (n : Int) :
    (splitOnStr s "->" = [a] →
      parseDomainEntry v r s
        = .ok ⟨strTrim (strToLower a), v, 80, r, ""⟩)
  ∧ (splitOnStr s "->" = [a, b] → atoi b = none →
      parseDomainEntry v r s = .error (.invalidPortNumber b))
  ∧ (splitOnStr s "->" = [a, b] → atoi b = some n →
      parseDomainEntry v r s
        = .ok ⟨strTrim (strToLower a), v, n, r, ""⟩)
  ∧ (3 ≤ (splitOnStr s "->").length →
      parseDomainEntry v r s = .error (.invalidDomainString s)) := by
  refine ⟨?_, ?_, ?_, ?_⟩
  · intro h
    unfold parseDomainEntry
    rw [h]
  · intro h hn
    unfold parseDomainEntry
    rw [h]
    simp only [hn]
  · intro h hn
    unfold parseDomainEntry
    rw [h]
    simp only [hn]
  · intro h
    rcases hsp : splitOnStr s "->" with _ | ⟨x, _ | ⟨y, _ | ⟨z, rest⟩⟩⟩ <;>
      rw [hsp] at h <;> simp at h
    unfold parseDomainEntry
    rw [hsp]

/-- C5 witness: `Example.COM->443` parses to hostname `example.com`
with port 443; `a->b->c` is rejected as an invalid domain string. -/
theorem domain_entry_forms_witness :
    parseDomainEntry "web1" true "Example.COM->443"
      = .ok ⟨"example.com", "web1", 443, true, ""⟩
    ∧ parseDomainEntry "web1" true "a->b->c"
      = .error (.invalidDomainString "a->b->c") := by
  constructor
  · exact (domain_entry_forms "web1" true "Example.COM->443" "Example.COM"
      "443" 443).2.2.1 (by decide) (by decide)
  · exact (domain_entry_forms "web1" true "a->b->c" "" ""
      0).2.2.2 (by decide)

/-- C6: a raw lifecycle-script entry is split on the first `@` into a
run-as user and a relative URL; entries with no `@` or an invalid user
token are rejected; the URL is resolved against the category prefix
and fetched; the first two bytes must equal `#!` or the entry is
rejected as not a script; fetch failures and signature failures both
surface as compile errors carrying the offending script URL, and a
failing entry's error is the compile error of the whole document. -/
theorem script_entry_validation (fetch : Fetcher)
    (tScript pURL a msg : String) (rest others : List String)
    (bytes tail : List Nat) (b0 b1 : Nat) (e : CompileError)
    (t : TomlVMConfig) (doms redirDoms : List Domain)
    (env : List (String × String)) :
    ((splitOnStr tScript "@").length = 1 →
      vmConfigGetScript fetch tScript pURL
        = .error (.scriptBadFormat tScript))
  ∧ (splitOnStr tScript "@" = a :: rest → rest ≠ [] →
      IsValidTokenName a = false →
      vmConfigGetScript fetch tScript pURL
        = .error (.scriptInvalidUser a))
  ∧ (splitOnStr tScript "@" = a :: rest → rest ≠ [] →
      IsValidTokenName a = true →
      fetch (pURL ++ joinWith "@" rest) = .error msg →
      vmConfigGetScript fetch tScript pURL
        = .error (.scriptFetchError (pURL ++ joinWith "@" rest) msg))
  ∧ (splitOnStr tScript "@" = a :: rest → rest ≠ [] →
      IsValidTokenName a = true →
      fetch (pURL ++ joinWith "@" rest) = .ok bytes →
      bytes.length < 2 →
      vmConfigGetScript fetch tScript pURL
        = .error (.scriptReadError (pURL ++ joinWith "@" rest) bytes.length))
  ∧ (splitOnStr tScript "@" = a :: rest → rest ≠ [] →
      IsValidTokenName a = true →
      fetch (pURL ++ joinWith "@" rest) = .ok (b0 :: b1 :: tail) →
      ¬(b0 = 35 ∧ b1 = 33) →
      vmConfigGetScript fetch tScript pURL
        = .error (.scriptNoShebang (pURL ++ joinWith "@" rest)))
  ∧ (splitOnStr tScript "@" = a :: rest → rest ≠ [] →
      IsValidTokenName a = true →
      fetch (pURL ++ joinWith "@" rest) = .ok (b0 :: b1 :: tail) →
      b0 = 35 → b1 = 33 →
      vmConfigGetScript fetch tScript pURL
        = .ok ⟨pURL ++ joinWith "@" rest, a⟩)
  ∧ (vmConfigGetScript fetch tScript pURL = .error e →
      compileScripts fetch pURL (tScript :: others) = .error e)
  ∧ (¬(t.name = "" ∨ ¬ IsValidTokenName t.name) →
      t.appUser ≠ "" →
      ¬(t.seed = "" ∨ ¬ IsValidTokenName t.seed) →
      ¬ t.diskSize < sizeMB →
      ¬ t.ramSize < sizeMB →
      ¬ t.cpuCount < 1 →
      compileDomains t.name t.redirectToHTTPS t.domains = .ok doms →
      compileRedirects t.name (doms.map (fun d => d.name)) t.redirects
        = .ok redirDoms →
      findDuplicateDomain (doms ++ redirDoms) [] = none →
      compileEnv [] t.env = .ok env →
      ¬ t.backupDiskSize < 32 * sizeMB →
      compileScripts fetch t.preparePrefixURL t.prepare = .error e →
      NewVMConfigFromToml fetch t = (none, some e)) := by
  refine ⟨?_, ?_, ?_, ?_, ?_, ?_, ?_, ?_⟩
  · intro h
    rcases hsp : splitOnStr tScript "@" with _ | ⟨x, _ | ⟨y, r2⟩⟩ <;>
      rw [hsp] at h <;> simp at h
    unfold vmConfigGetScript
    rw [hsp]
  · intro h hrest hbad
    rcases rest with _ | ⟨r0, rs⟩
    · exact absurd rfl hrest
    · unfold vmConfigGetScript
      rw [h]
      simp only [hbad, Bool.false_eq_true, Bool.not_false, if_true,
        Bool.not_eq_true]
  · intro h hrest htok hfetch
    rcases rest with _ | ⟨r0, rs⟩
    · exact absurd rfl hrest
    · unfold vmConfigGetScript
      rw [h]
      simp only [htok, Bool.not_true, Bool.false_eq_true, if_false]
      simp only [hfetch]
  · intro h hrest htok hfetch hlen
    rcases rest with _ | ⟨r0, rs⟩
    · exact absurd rfl hrest
    · unfold vmConfigGetScript
      rw [h]
      simp only [htok, Bool.not_true, Bool.false_eq_true, if_false]
      simp only [hfetch]
      rcases bytes with _ | ⟨c0, _ | ⟨c1, cs⟩⟩
      · simp
      · simp
      · exact absurd hlen (by simp only [List.length_cons]; omega)
  · intro h hrest htok hfetch hsig
    rcases rest with _ | ⟨r0, rs⟩
    · exact absurd rfl hrest
    · unfold vmConfigGetScript
      rw [h]
      simp only [htok, Bool.not_true, Bool.false_eq_true, if_false]
      simp only [hfetch]
      rw [if_neg hsig]
  · intro h hrest htok hfetch hb0 hb1
    rcases rest with _ | ⟨r0, rs⟩
    · exact absurd rfl hrest
    · unfold vmConfigGetScript
      rw [h]
      simp only [htok, Bool.not_true, Bool.false_eq_true, if_false]
      simp only [hfetch]
      rw [if_pos ⟨hb0, hb1⟩]
  · intro h
    simp only [compileScripts, h]
  · intro h1 h2 h3 h4 h5 h6 hdoms hrds hdup henv hback hprep
    unfold NewVMConfigFromToml
    rw [if_neg h1, if_neg h2, if_neg h3, if_neg h4, if_neg h5, if_neg h6]
    simp only [hdoms, hrds, hdup, henv]
    rw [if_neg hback]
    simp only [hprep]

/-- C6 witness: `admin@setup.sh` with prefix `https://example.com/`
compiles against a fetcher serving a `#!` script; the same entry
pointing at a missing resource surfaces a fetch error naming the
resolved URL. -/
theorem script_entry_validation_witness :
    vmConfigGetScript scriptFetcher "admin@setup.sh" "https://example.com/"
      = .ok ⟨"https://example.com/setup.sh", "admin"⟩
    ∧ vmConfigGetScript scriptFetcher "admin@missing.sh"
        "https://example.com/"
      = .error (.scriptFetchError "https://example.com/missing.sh"
          "not found") := by
  constructor
  · exact (script_entry_validation scriptFetcher "admin@setup.sh"
      "https://example.com/" "admin" "" ["setup.sh"] [] [] [10] 35 33
      .needOneCPU scenarioDoc [] [] []).2.2.2.2.2.1
      (by decide) (by decide) (by decide) rfl rfl rfl
  · exact (script_entry_validation scriptFetcher "admin@missing.sh"
      "https://example.com/" "admin" "not found" ["missing.sh"] [] [] [] 0 0
      .needOneCPU scenarioDoc [] [] []).2.2.1
      (by decide) (by decide) (by decide) rfl

/-- C7: config compilation is deterministic — identical document
records and pointwise-identical fetch responses produce identical
results. -/
theorem compile_deterministic (f1 f2 : Fetcher) (t1 t2 : TomlVMConfig)
    (ht : t1 = t2) (hf : ∀ u, f1 u = f2 u) :
    NewVMConfigFromToml f1 t1 = NewVMConfigFromToml f2 t2 := by
  subst ht
  have hfe : f1 = f2 := funext hf
  rw [hfe]

/-- C7 witness: determinism applied to the scenario document. -/
theorem compile_deterministic_witness :
    NewVMConfigFromToml sampleFetcher scenarioDoc
      = NewVMConfigFromToml sampleFetcher scenarioDoc :=
  compile_deterministic sampleFetcher sampleFetcher scenarioDoc scenarioDoc
    rfl (fun _ => rfl)

/-- C9: whenever compilation returns an error, the returned config is
nil — no partially validated configuration reaches the caller. -/
theorem compile_error_yields_no_config (fetch : Fetcher) (t : TomlVMConfig)
    (e : CompileError)
    (h : (NewVMConfigFromToml fetch t).2 = some e) :
    (NewVMConfigFromToml fetch t).1 = none := by
  rcases compile_shape fetch t with h2 | h1
  · rw [h] at h2
    simp at h2
  · exact h1

/-- C9 witness: the failing 500 KB-disk document yields a nil config. -/
theorem compile_error_yields_no_config_witness :
    (NewVMConfigFromToml sampleFetcher smallDiskDoc).1 = none :=
  compile_error_yields_no_config sampleFetcher smallDiskDoc
    (.tooSmallDisk 512000) (by decide)

/-- C10: a document declaring zero domain bindings still compiles
successfully, and the compiler only logs the "no domain defined"
warning — an empty domain list is not a validation failure. -/
theorem empty_domain_list_compiles (fetch : Fetcher) (t : TomlVMConfig)
    (env : List (String × String)) (prepS backS restS : List VMConfigScript)
    (hname : t.name ≠ "") (hntok : IsValidTokenName t.name = true)
    (happ : t.appUser ≠ "")
    (hseed : t.seed ≠ "") (hstok : IsValidTokenName t.seed = true)
    (hdisk : sizeMB ≤ t.diskSize) (hram : sizeMB ≤ t.ramSize)
    (hcpu : 1 ≤ t.cpuCount)
    (hdom : t.domains = []) (hred : t.redirects = [])
    (henv : compileEnv [] t.env = .ok env)
    (hb : 32 * sizeMB ≤ t.backupDiskSize)
    (hp : compileScripts fetch t.preparePrefixURL t.prepare = .ok prepS)
    (hbk : compileScripts fetch t.backupPrefixURL t.backup = .ok backS)
    (hr : compileScripts fetch t.restorePrefixURL t.restore = .ok restS) :
    NewVMConfigFromToml fetch t
      = (some ⟨t.name, t.hostname, t.timezone, t.appUser, t.seed,
          t.initUpgrade, t.diskSize, t.ramSize, t.cpuCount, [], env,
          t.backupDiskSize, t.restoreBackup, prepS, backS, restS⟩, none)
    ∧ compileWarnings t = ["no domain defined for this VM"] := by
  constructor
  · unfold NewVMConfigFromToml
    rw [if_neg (by simp [hname, hntok]), if_neg happ,
      if_neg (by simp [hseed, hstok]), if_neg (by omega), if_neg (by omega),
      if_neg (by omega), hdom, hred]
    simp only [compileDomains, compileRedirects, findDuplicateDomain, henv,
      hp, hbk, hr]
    rw [if_neg (by omega)]
    rfl
  · unfold compileWarnings
    rw [if_neg (by simp [hname, hntok]), if_neg happ,
      if_neg (by simp [hseed, hstok]), if_neg (by omega), if_neg (by omega),
      if_neg (by omega), hdom]
    simp

/-- C10 witness: the scenario document with no domains compiles and
produces exactly the warning. -/
theorem empty_domain_list_compiles_witness :
    NewVMConfigFromToml sampleFetcher noDomainDoc
      = (some ⟨noDomainDoc.name, noDomainDoc.hostname, noDomainDoc.timezone,
          noDomainDoc.appUser, noDomainDoc.seed, noDomainDoc.initUpgrade,
          noDomainDoc.diskSize, noDomainDoc.ramSize, noDomainDoc.cpuCount,
          [], [], noDomainDoc.backupDiskSize, noDomainDoc.restoreBackup,
          [], [], []⟩, none)
    ∧ compileWarnings noDomainDoc = ["no domain defined for this VM"] :=
  empty_domain_list_compiles sampleFetcher noDomainDoc [] [] [] []
    (by decide) (by decide) (by decide) (by decide) (by decide)
    (by decide) (by decide) (by decide) rfl rfl rfl (by decide)
    rfl rfl rfl

/-- C2: a successful provisioning copy of a source of N bytes reports
exactly N bytes copied and leaves the destination byte-identical to
the source, both for the delegated-clone (hypervisor stream) strategy
and for the direct file-copy fallback. -/
theorem provision_copy_exact (chunk : Nat) (src : List Nat)
    (hc : chunk ≠ 0) :
    createDiskFromRelease src = (src.length, src)
    ∧ createDiskFromReleaseWithLibvirt chunk src = (src.length, src) :=
  ⟨streamCopy_spec ioCopyBufferSize (by decide) src,
   streamCopy_spec chunk hc src⟩

/-- C2 witness: both strategies copy a 5-byte source exactly. -/
theorem provision_copy_exact_witness :
    createDiskFromRelease [9, 8, 7, 6, 5] = (5, [9, 8, 7, 6, 5])
    ∧ createDiskFromReleaseWithLibvirt 2 [9, 8, 7, 6, 5]
        = (5, [9, 8, 7, 6, 5]) :=
  provision_copy_exact 2 [9, 8, 7, 6, 5] (by decide)

/-- C8: volume resize prefers the hypervisor's native volume-resize
call, and without a capable hypervisor abstraction it falls back to
invoking `qemu-img resize` against the destination file path with the
target size, capturing the combined output. -/
theorem resize_strategy_selection (disk : String) (size : Nat)
    (sizeText : String) :
    resizeVolume true disk size sizeText
      = .nativeVolumeResize "mulch-disks" disk size
    ∧ resizeVolume false disk size sizeText
      = .execCommand "qemu-img" ["resize", "storage/disks/" ++ disk,
          sizeText] true :=
  ⟨rfl, rfl⟩

end Mulch
